import Mathlib

/-!
Shallow embedding of the Metasino table contract (src/lib.rs, `mod metasino`).

Modelling conventions:
- `AccountId` (a 32-byte identity, compared only for equality in the source)
  is modelled as `Nat`.
- `Balance` is `u128` in the source; the spec (section 1) tracks it as a
  logical pot counter, and all claim scenarios stay far below `2 ^ 128`,
  so balances are modelled as `Nat` with exact arithmetic.
- `get_players_count` returns `self.players.len() as u8`: the cast from
  `usize` to `u8` truncates, hence the explicit `% 256`.
- Each panic site of the source becomes an `Err` value named after its
  panic message.  A message that panics is modelled two ways:
  `*_seq` functions return the storage struct exactly as the sequential
  Rust body has written it at the point of return or panic, paired with
  `Option Err` (the panic raised, if any); `apply_op` is the observable
  contract call, where the host reverts all writes of a panicking call.
-/

/-- Game state enum `STATE` from the source. -/
inductive STATE where
  | STAGING
  | PLAYING
  | ENDED
deriving Repr, DecidableEq

/-- One value per panic site of the source, named after its message:
`InvalidBetAmount` = "Required start bet must be greater than 0",
`GameOngoing` = "Game is ongoing!!" (the state guard in `PLAYING`, which the
spec's error taxonomy labels `TableNotAcceptingPlayers` for `register_player`
and `TableNotTerminable` for `terminate`),
`GameEnded` = "Game has already has ended" (the state guard in `ENDED`),
`TableFull` = "Max players reached",
`BetMismatch` = "start Bet value requires at exact {}",
`DuplicateRegistration` = "Player already registered",
`InsufficientPlayers` = "Minimum {} players required to start the game",
`NotAuthorized` = "Only the initializer can terminate the game". -/
inductive Err where
  | InvalidBetAmount
  | GameOngoing
  | GameEnded
  | TableFull
  | BetMismatch
  | DuplicateRegistration
  | InsufficientPlayers
  | NotAuthorized
deriving Repr, DecidableEq

/-- The contract storage struct `Metasino`. -/
structure Metasino where
  initializer : Nat
  players : List Nat
  required_start_bet : Nat
  pot : Nat
  state : STATE
deriving Repr, DecidableEq

/-- `const MAX_PLAYERS: u8 = 10`. -/
def MAX_PLAYERS : Nat := 10

/-- `const MIN_PLAYERS: u8 = 3`. -/
def MIN_PLAYERS : Nat := 3

/-- `get_players`: returns a clone of the player vector. -/
def get_players (t : Metasino) : List Nat := t.players

/-- `get_players_count`: `self.players.len() as u8`; the `usize → u8` cast
truncates modulo 256. -/
def get_players_count (t : Metasino) : Nat := t.players.length % 256

/-- `get_accumulated_pot`. -/
def get_accumulated_pot (t : Metasino) : Nat := t.pot

/-- `get_table_state`. -/
def get_table_state (t : Metasino) : STATE := t.state

/-- `get_required_start_bet`. -/
def get_required_start_bet (t : Metasino) : Nat := t.required_start_bet

/-- `table_status_guard`: panics with "Game is ongoing!!" in `PLAYING` and
"Game has already has ended" in `ENDED`; returns the panic as a value. -/
def table_status_guard (t : Metasino) : Option Err :=
  if t.state = STATE.PLAYING then some Err.GameOngoing
  else if t.state = STATE.ENDED then some Err.GameEnded
  else none

/-- Constructor `new(required_start_bet)`: rejects a non-positive bet
(`Balance` is unsigned, so only 0), then builds the storage with the caller
auto-enrolled and the pot seeded with the bet.  The constructor performs its
only check before building anything, so it is `Except`-valued directly. -/
def new (caller : Nat) (required_start_bet : Nat) : Except Err Metasino :=
  if required_start_bet ≤ 0 then Except.error Err.InvalidBetAmount
  else Except.ok
    { initializer := caller
      players := [caller]
      required_start_bet := required_start_bet
      pot := required_start_bet
      state := STATE.STAGING }

/-- Sequential body of `register_player(start_bet)` for caller `caller`:
guard, capacity check, exact-bet check, then `self.pot += start_bet`, and
only after that write the duplicate check (`if !contains push else panic`).
Returns the storage exactly as written at the point of return or panic. -/
def register_player_seq (t : Metasino) (caller : Nat) (start_bet : Nat) :
    Metasino × Option Err :=
  match table_status_guard t with
  | some e => (t, some e)
  | none =>
    if MAX_PLAYERS ≤ get_players_count t then (t, some Err.TableFull)
    else if start_bet ≠ t.required_start_bet then (t, some Err.BetMismatch)
    else
      let t1 : Metasino := { t with pot := t.pot + start_bet }
      if caller ∈ t1.players then (t1, some Err.DuplicateRegistration)
      else ({ t1 with players := t1.players ++ [caller] }, none)

/-- Sequential body of `start_game()`: guard, quorum check, then
`self.state = STATE::PLAYING`.  The source reads no caller identity at all. -/
def start_game_seq (t : Metasino) : Metasino × Option Err :=
  match table_status_guard t with
  | some e => (t, some e)
  | none =>
    if get_players_count t < MIN_PLAYERS then (t, some Err.InsufficientPlayers)
    else ({ t with state := STATE.PLAYING }, none)

/-- Sequential body of `terminate()` for caller `caller`: guard, then panic
with "Only the initializer can terminate the game" when the caller is found
in the player list, else `self.players.clear()`. -/
def terminate_seq (t : Metasino) (caller : Nat) : Metasino × Option Err :=
  match table_status_guard t with
  | some e => (t, some e)
  | none =>
    if caller ∈ get_players t then (t, some Err.NotAuthorized)
    else ({ t with players := [] }, none)

/-- Observable `register_player` call: a panic aborts the call and the host
discards every write of the aborted call (ink! reverts a trapped message). -/
def register_player (t : Metasino) (caller : Nat) (start_bet : Nat) :
    Except Err Metasino :=
  match register_player_seq t caller start_bet with
  | (_, some e) => Except.error e
  | (t1, none) => Except.ok t1

/-- Observable `start_game` call, with host revert on panic. -/
def start_game (t : Metasino) : Except Err Metasino :=
  match start_game_seq t with
  | (_, some e) => Except.error e
  | (t1, none) => Except.ok t1

/-- Observable `terminate` call, with host revert on panic. -/
def terminate_call (t : Metasino) (caller : Nat) : Except Err Metasino :=
  match terminate_seq t caller with
  | (_, some e) => Except.error e
  | (t1, none) => Except.ok t1

/-- One mutating message sent to an existing table. -/
inductive Op where
  | register (caller : Nat) (start_bet : Nat)
  | start
  | terminate (caller : Nat)
deriving Repr, DecidableEq

/-- Effect of one message on the persisted table: a successful call persists
its writes, a panicking call is reverted by the host and persists nothing. -/
def apply_op (t : Metasino) (op : Op) : Metasino :=
  match op with
  | Op.register c b =>
    match register_player_seq t c b with
    | (_, some _) => t
    | (t1, none) => t1
  | Op.start =>
    match start_game_seq t with
    | (_, some _) => t
    | (t1, none) => t1
  | Op.terminate c =>
    match terminate_seq t c with
    | (_, some _) => t
    | (t1, none) => t1

/-- Persisted table after a sequence of messages. -/
def run (t : Metasino) (ops : List Op) : Metasino := ops.foldl apply_op t

/-- Tables reachable from a successful constructor call by any sequence of
`register_player`, `start_game`, `terminate` messages, successful or failed. -/
inductive Reachable : Metasino → Prop where
  | base (caller bet : Nat) (t : Metasino) :
      new caller bet = Except.ok t → Reachable t
  | step (t : Metasino) (op : Op) : Reachable t → Reachable (apply_op t op)

/-- Tables reachable from a successful constructor call using only
`register_player` and `start_game` messages (no `terminate`). -/
inductive ReachableNT : Metasino → Prop where
  | base (caller bet : Nat) (t : Metasino) :
      new caller bet = Except.ok t → ReachableNT t
  | register (t : Metasino) (c b : Nat) :
      ReachableNT t → ReachableNT (apply_op t (Op.register c b))
  | start (t : Metasino) :
      ReachableNT t → ReachableNT (apply_op t Op.start)

/-- Modelled from the spec: the spec sentence on `registerPlayer` failure
selection, "state guard first, then capacity, then bet amount, then duplicate
check", written as a direct decision chain over the fields, to be compared
with the error actually produced by the embedded source body. -/
def register_failure_order_spec (t : Metasino) (caller : Nat)
    (start_bet : Nat) : Option Err :=
  if t.state = STATE.PLAYING then some Err.GameOngoing
  else if t.state = STATE.ENDED then some Err.GameEnded
  else if MAX_PLAYERS ≤ get_players_count t then some Err.TableFull
  else if start_bet ≠ t.required_start_bet then some Err.BetMismatch
  else if caller ∈ t.players then some Err.DuplicateRegistration
  else none

/-- Sequential registration of a list of callers, all with stake `bet`,
through the observable `register_player` call; stops at the first failure. -/
def registerAll (t : Metasino) (bet : Nat) (ids : List Nat) :
    Except Err Metasino :=
  match ids with
  | [] => Except.ok t
  | c :: rest =>
    match register_player t c bet with
    | Except.error e => Except.error e
    | Except.ok t1 => registerAll t1 bet rest

/-- Inductive invariant of terminate-free reachable tables: at most ten
players, pot exactly bet times player count, the initializer enrolled, no
duplicate players, and a positive bet. -/
def InvNT (t : Metasino) : Prop :=
  t.players.length ≤ 10 ∧
  t.pot = t.required_start_bet * t.players.length ∧
  t.initializer ∈ t.players ∧
  t.players.Nodup ∧
  1 ≤ t.required_start_bet

/-- Invariant of every reachable table: positive bet, pot at least the bet,
at most ten players. -/
def InvR (t : Metasino) : Prop :=
  1 ≤ t.required_start_bet ∧
  t.required_start_bet ≤ t.pot ∧
  t.players.length ≤ 10

/-- Invariant of every table whose history contains a successful terminate:
the pot strictly exceeds bet times player count, and it stays that way. -/
def StrictInv (t : Metasino) : Prop :=
  1 ≤ t.required_start_bet ∧
  1 ≤ t.pot ∧
  t.required_start_bet * t.players.length < t.pot ∧
  t.players.length ≤ 10

/-- Concrete table produced by `new 0 100`. -/
def tableA : Metasino :=
  { initializer := 0, players := [0], required_start_bet := 100, pot := 100,
    state := STATE.STAGING }

/-- Concrete staging table with the three players 0, 1, 2 at bet 100. -/
def tableABC : Metasino :=
  { initializer := 0, players := [0, 1, 2], required_start_bet := 100,
    pot := 300, state := STATE.STAGING }

/-- Concrete playing table with the three players 0, 1, 2 at bet 100. -/
def tablePlaying : Metasino :=
  { initializer := 0, players := [0, 1, 2], required_start_bet := 100,
    pot := 300, state := STATE.PLAYING }

/-- Concrete table produced by `new 0 1`. -/
def table1 : Metasino :=
  { initializer := 0, players := [0], required_start_bet := 1, pot := 1,
    state := STATE.STAGING }

/-- The table `table1` after a successful `terminate` by the stranger 1. -/
def table1T : Metasino :=
  { initializer := 0, players := [], required_start_bet := 1, pot := 1,
    state := STATE.STAGING }

/-- The table `table1T` after player 2 registers with the exact bet. -/
def table1R : Metasino :=
  { initializer := 0, players := [2], required_start_bet := 1, pot := 2,
    state := STATE.STAGING }

lemma guard_staging {t : Metasino} (h : t.state = STATE.STAGING) :
    table_status_guard t = none := by
  simp [table_status_guard, h]

lemma guard_playing {t : Metasino} (h : t.state = STATE.PLAYING) :
    table_status_guard t = some Err.GameOngoing := by
  simp [table_status_guard, h]

lemma guard_ended {t : Metasino} (h : t.state = STATE.ENDED) :
    table_status_guard t = some Err.GameEnded := by
  simp [table_status_guard, h]

lemma guard_none_iff {t : Metasino} :
    table_status_guard t = none ↔ t.state = STATE.STAGING := by
  cases h : t.state <;> simp [table_status_guard, h]

lemma guard_some_elim {t : Metasino} {e0 : Err}
    (hg : table_status_guard t = some e0) :
    e0 = Err.GameOngoing ∨ e0 = Err.GameEnded := by
  unfold table_status_guard at hg
  split_ifs at hg <;> simp_all

lemma register_seq_guard_some {t : Metasino} {e0 : Err}
    (hg : table_status_guard t = some e0) (c b : Nat) :
    register_player_seq t c b = (t, some e0) := by
  unfold register_player_seq
  rw [hg]

lemma register_seq_guard_none {t : Metasino}
    (hg : table_status_guard t = none) (c b : Nat) :
    register_player_seq t c b =
      (if MAX_PLAYERS ≤ get_players_count t then (t, some Err.TableFull)
       else if b ≠ t.required_start_bet then (t, some Err.BetMismatch)
       else if c ∈ t.players then
         ({ t with pot := t.pot + b }, some Err.DuplicateRegistration)
       else ({ t with pot := t.pot + b, players := t.players ++ [c] }, none)) := by
  unfold register_player_seq
  rw [hg]

lemma start_seq_guard_some {t : Metasino} {e0 : Err}
    (hg : table_status_guard t = some e0) :
    start_game_seq t = (t, some e0) := by
  unfold start_game_seq
  rw [hg]

lemma start_seq_guard_none {t : Metasino}
    (hg : table_status_guard t = none) :
    start_game_seq t =
      (if get_players_count t < MIN_PLAYERS then (t, some Err.InsufficientPlayers)
       else ({ t with state := STATE.PLAYING }, none)) := by
  unfold start_game_seq
  rw [hg]

lemma terminate_seq_guard_some {t : Metasino} {e0 : Err}
    (hg : table_status_guard t = some e0) (c : Nat) :
    terminate_seq t c = (t, some e0) := by
  unfold terminate_seq
  rw [hg]

lemma terminate_seq_guard_none {t : Metasino}
    (hg : table_status_guard t = none) (c : Nat) :
    terminate_seq t c =
      (if c ∈ t.players then (t, some Err.NotAuthorized)
       else ({ t with players := [] }, none)) := by
  unfold terminate_seq get_players
  rw [hg]

lemma new_ok {c b : Nat} {t : Metasino} (h : new c b = Except.ok t) :
    1 ≤ b ∧ t = { initializer := c, players := [c], required_start_bet := b, pot := b, state := STATE.STAGING } := by
  unfold new at h
  split_ifs at h with hb
  cases h
  exact ⟨by omega, rfl⟩

/-- C6: for every positive required bet, `new` succeeds and yields a table
with the initiator as sole player, the pot equal to the bet, and state
`STAGING`; a non-positive bet always fails with `InvalidBetAmount`, and
there is no other failure mode. -/
theorem c6_create (c b : Nat) :
    (b ≤ 0 → new c b = Except.error Err.InvalidBetAmount) ∧
    (0 < b → new c b = Except.ok { initializer := c, players := [c], required_start_bet := b, pot := b, state := STATE.STAGING }) := by
  constructor
  · intro h
    unfold new
    rw [if_pos h]
  · intro h
    unfold new
    rw [if_neg (by omega)]

theorem c6_witness :
    new 7 0 = Except.error Err.InvalidBetAmount ∧
    new 7 100 = Except.ok { initializer := 7, players := [7], required_start_bet := 100, pot := 100, state := STATE.STAGING } :=
  ⟨(c6_create 7 0).1 (by decide), (c6_create 7 100).2 (by decide)⟩

/-- C4: the failure reported by `register_player` follows the spec's fixed
decision order — state guard first (the guard panics, which the spec labels
`TableNotAcceptingPlayers`), then capacity, then exact bet, then duplicate —
stated as: the error of the embedded source body coincides, on every table
and every call, with `register_failure_order_spec`, the decision chain
written directly from the spec's ordering sentence. -/
theorem c4_register_failure_order (t : Metasino) (c b : Nat) :
    (register_player_seq t c b).2 = register_failure_order_spec t c b := by
  unfold register_player_seq register_failure_order_spec table_status_guard
  cases h : t.state <;> simp [h] <;> split_ifs <;> simp_all

/-- C3: on a `STAGING` table, `terminate` fails with `NotAuthorized` exactly
when the caller is in the player list (so strangers, not the initializer,
are the ones allowed through), and on success it clears the player list and
leaves pot, required bet, state and initializer untouched. -/
theorem c3_terminate_staging (t : Metasino) (c : Nat)
    (h : t.state = STATE.STAGING) :
    ((terminate_seq t c).2 = some Err.NotAuthorized ↔ c ∈ t.players) ∧
    (c ∉ t.players → terminate_seq t c = ({ t with players := [] }, none)) := by
  unfold terminate_seq get_players
  rw [guard_staging h]
  by_cases hc : c ∈ t.players
  · simp [hc]
  · simp [hc]

theorem c3_witness :
    ((terminate_seq tableA 0).2 = some Err.NotAuthorized ↔ (0 : Nat) ∈ tableA.players) ∧
    terminate_seq tableA 5 = ({ tableA with players := [] }, none) :=
  ⟨(c3_terminate_staging tableA 0 rfl).1,
   (c3_terminate_staging tableA 5 rfl).2 (by decide)⟩

/-- C7: on a `STAGING` table, `start_game` (which reads no caller identity
at all, so any caller may invoke it) fails with `InsufficientPlayers` when
the player count is below `MIN_PLAYERS`, and otherwise succeeds changing
only the state field, to `PLAYING`. -/
theorem c7_start_game (t : Metasino) (h : t.state = STATE.STAGING) :
    (get_players_count t < MIN_PLAYERS →
      start_game_seq t = (t, some Err.InsufficientPlayers)) ∧
    (MIN_PLAYERS ≤ get_players_count t →
      start_game_seq t = ({ t with state := STATE.PLAYING }, none)) := by
  unfold start_game_seq
  rw [guard_staging h]
  constructor
  · intro hlt
    rw [if_pos hlt]
  · intro hge
    rw [if_neg (by omega)]

theorem c7_witness :
    start_game_seq tableA = (tableA, some Err.InsufficientPlayers) ∧
    start_game_seq tableABC = ({ tableABC with state := STATE.PLAYING }, none) :=
  ⟨(c7_start_game tableA rfl).1 (by decide),
   (c7_start_game tableABC rfl).2 (by decide)⟩

/-- C2 counterexample: on the table freshly created by caller 0 with bet 100,
a repeated registration by caller 0 fails with `DuplicateRegistration`, yet
at the point of that failure the pot field has already been written (200,
against 100 before the call): the duplicate check is evaluated after a field
write, not before. -/
theorem c2_counterexample :
    (register_player_seq tableA 0 100).2 = some Err.DuplicateRegistration ∧
    (register_player_seq tableA 0 100).1.pot = 200 ∧
    tableA.pot = 100 := by
  decide

/-- C2 (amended): `start_game` and `terminate` evaluate every check before
any field write, so their failing bodies return the table unchanged;
`register_player` evaluates the guard, capacity and bet checks before any
write, but writes `pot += start_bet` before the duplicate check, so a body
failing with `DuplicateRegistration` has already set `pot` to `pot + bet`
at the point of failure — at the host level every panic reverts the call,
so the persisted table is unchanged on any failure. -/
theorem c2_failure_frame (t : Metasino) (c b : Nat) :
    (∀ e, (register_player_seq t c b).2 = some e →
      (e = Err.DuplicateRegistration ∧
        (register_player_seq t c b).1 = { t with pot := t.pot + b }) ∨
      (e ≠ Err.DuplicateRegistration ∧ (register_player_seq t c b).1 = t)) ∧
    ((start_game_seq t).2.isSome → (start_game_seq t).1 = t) ∧
    ((terminate_seq t c).2.isSome → (terminate_seq t c).1 = t) := by
  refine ⟨?_, ?_, ?_⟩
  · intro e he
    rcases hg : table_status_guard t with _ | e0
    · rw [register_seq_guard_none hg] at he ⊢
      split_ifs at he ⊢ with h1 h2 h3
      · simp at he
        subst he
        exact Or.inr ⟨by decide, rfl⟩
      · simp at he
        subst he
        exact Or.inr ⟨by decide, rfl⟩
      · exact Or.inl ⟨by simpa using he.symm, rfl⟩
    · rw [register_seq_guard_some hg c b] at he ⊢
      simp at he
      rcases guard_some_elim hg with h0 | h0 <;> subst h0 <;> subst he <;>
        exact Or.inr ⟨by decide, rfl⟩
  · intro hs
    rcases hg : table_status_guard t with _ | e0
    · rw [start_seq_guard_none hg] at hs ⊢
      split_ifs at hs ⊢ with h1
      · rfl
      · simp at hs
    · rw [start_seq_guard_some hg]
  · intro hs
    rcases hg : table_status_guard t with _ | e0
    · rw [terminate_seq_guard_none hg c] at hs ⊢
      split_ifs at hs ⊢ with h1
      · rfl
      · simp at hs
    · rw [terminate_seq_guard_some hg c]

theorem c2_witness :
    ((Err.BetMismatch = Err.DuplicateRegistration ∧
        (register_player_seq tableA 3 50).1 = { tableA with pot := tableA.pot + 50 }) ∨
      (Err.BetMismatch ≠ Err.DuplicateRegistration ∧
        (register_player_seq tableA 3 50).1 = tableA)) ∧
    (terminate_seq tablePlaying 3).1 = tablePlaying :=
  ⟨(c2_failure_frame tableA 3 50).1 Err.BetMismatch (by decide),
   (c2_failure_frame tablePlaying 3 0).2.2 (by decide)⟩

lemma apply_op_register_def (t : Metasino) (c b : Nat) :
    apply_op t (Op.register c b) =
      (match register_player_seq t c b with
       | (_, some _) => t
       | (t1, none) => t1) := rfl

lemma apply_op_start_def (t : Metasino) :
    apply_op t Op.start =
      (match start_game_seq t with
       | (_, some _) => t
       | (t1, none) => t1) := rfl

lemma apply_op_terminate_def (t : Metasino) (c : Nat) :
    apply_op t (Op.terminate c) =
      (match terminate_seq t c with
       | (_, some _) => t
       | (t1, none) => t1) := rfl

lemma register_seq_ok {t : Metasino} {c b : Nat}
    (h : (register_player_seq t c b).2 = none) :
    t.state = STATE.STAGING ∧ get_players_count t < MAX_PLAYERS ∧
    b = t.required_start_bet ∧ c ∉ t.players ∧
    (register_player_seq t c b).1 =
      { t with pot := t.pot + b, players := t.players ++ [c] } := by
  rcases hg : table_status_guard t with _ | e0
  · rw [register_seq_guard_none hg c b] at h ⊢
    split_ifs at h ⊢ with h1 h2 h3
    exact ⟨guard_none_iff.mp hg, Nat.lt_of_not_le h1, Decidable.not_not.mp h2, h3, rfl⟩
  · rw [register_seq_guard_some hg c b] at h
    simp at h

lemma invNT_new {c b : Nat} {t : Metasino} (h : new c b = Except.ok t) :
    InvNT t := by
  obtain ⟨hb, rfl⟩ := new_ok h
  exact ⟨by simp, by simp, by simp, by simp, hb⟩

lemma invNT_register {t : Metasino} (c b : Nat) (h : InvNT t) :
    InvNT (apply_op t (Op.register c b)) := by
  rcases hr : register_player_seq t c b with ⟨t1, _ | e0⟩
  · rw [apply_op_register_def, hr]
    show InvNT t1
    obtain ⟨hst, hcnt, hb, hcp, heq⟩ := register_seq_ok (t := t) (c := c) (b := b) (by rw [hr])
    rw [hr] at heq
    simp only at heq
    subst heq
    obtain ⟨hlen, hpot, hini, hnd, hbet⟩ := h
    refine ⟨?_, ?_, ?_, ?_, hbet⟩
    · simp only [List.length_append, List.length_singleton]
      unfold get_players_count at hcnt
      unfold MAX_PLAYERS at hcnt
      omega
    · simp only [List.length_append, List.length_singleton]
      rw [hpot, hb, Nat.mul_add, Nat.mul_one]
    · exact List.mem_append_left _ hini
    · simp [List.nodup_append, hnd, hcp]
  · rw [apply_op_register_def, hr]
    show InvNT t
    exact h

lemma invNT_start {t : Metasino} (h : InvNT t) :
    InvNT (apply_op t Op.start) := by
  rw [apply_op_start_def]
  rcases hg : table_status_guard t with _ | e0
  · rw [start_seq_guard_none hg]
    split_ifs with h1
    · exact h
    · exact h
  · rw [start_seq_guard_some hg]
    exact h

lemma reachableNT_inv {t : Metasino} (h : ReachableNT t) : InvNT t := by
  induction h with
  | base c b t h0 => exact invNT_new h0
  | register t c b h ih => exact invNT_register c b ih
  | start t h ih => exact invNT_start ih

/-- C1 counterexample: the table created by caller 0 with bet 1 and then
terminated by the stranger 1 is reachable, yet its pot (1) differs from
bet times player count (1 * 0 = 0) — `terminate` clears the players while
keeping the pot, breaking the claimed invariant. -/
theorem c1_counterexample :
    Reachable table1T ∧
    ¬ table1T.pot = table1T.required_start_bet * get_players_count table1T := by
  constructor
  · have h0 : Reachable table1 := Reachable.base 0 1 table1 rfl
    have h1 := Reachable.step table1 (Op.terminate 1) h0
    have e1 : apply_op table1 (Op.terminate 1) = table1T := by decide
    rw [e1] at h1
    exact h1
  · decide

/-- C1 (amended): `pot == requiredStartBet * playerCount` holds for every
table reachable by create, registerPlayer and startGame operations
(successful or failed) with no terminate among them; a successful terminate
breaks the equation. -/
theorem c1_pot_invariant_no_terminate (t : Metasino) (h : ReachableNT t) :
    t.pot = t.required_start_bet * get_players_count t := by
  obtain ⟨hlen, hpot, -, -, -⟩ := reachableNT_inv h
  have hcnt : get_players_count t = t.players.length := by
    unfold get_players_count
    omega
  rw [hcnt, hpot]

theorem c1_witness :
    table1.pot = table1.required_start_bet * get_players_count table1 :=
  c1_pot_invariant_no_terminate table1 (ReachableNT.base 0 1 table1 rfl)

/-- C9 counterexample: create by 0 with bet 1, terminate by the stranger 1
(allowed, clears the list), then 2 registers — the table is reachable, has
a non-empty player list, and the initializer 0 now succeeds in terminating
it, because 0 is no longer in the player list. -/
theorem c9_counterexample :
    Reachable table1R ∧ table1R.players ≠ [] ∧
    (terminate_seq table1R table1R.initializer).2 = none := by
  refine ⟨?_, by decide, by decide⟩
  have h0 : Reachable table1 := Reachable.base 0 1 table1 rfl
  have h1 := Reachable.step table1 (Op.terminate 1) h0
  have e1 : apply_op table1 (Op.terminate 1) = table1T := by decide
  rw [e1] at h1
  have h2 := Reachable.step table1T (Op.register 2 1) h1
  have e2 : apply_op table1T (Op.register 2 1) = table1R := by decide
  rw [e2] at h2
  exact h2

/-- C9 (amended): on every table reachable without terminate the initializer
is still enrolled, so the initializer's own terminate call always fails —
with `NotAuthorized` whenever the table is in `STAGING` (and with the state
guard otherwise); once a terminate has emptied the list, the initializer can
successfully terminate a repopulated table. -/
theorem c9_initializer_cannot_terminate (t : Metasino) (h : ReachableNT t) :
    (terminate_seq t t.initializer).2 ≠ none ∧
    (t.state = STATE.STAGING →
      (terminate_seq t t.initializer).2 = some Err.NotAuthorized) := by
  have hmem := (reachableNT_inv h).2.2.1
  rcases hg : table_status_guard t with _ | e0
  · rw [terminate_seq_guard_none hg t.initializer, if_pos hmem]
    exact ⟨by simp, fun _ => rfl⟩
  · rw [terminate_seq_guard_some hg t.initializer]
    refine ⟨by simp, ?_⟩
    intro hst
    rw [guard_staging hst] at hg
    cases hg

theorem c9_witness :
    (terminate_seq tableA tableA.initializer).2 ≠ none ∧
    (terminate_seq tableA tableA.initializer).2 = some Err.NotAuthorized :=
  ⟨(c9_initializer_cannot_terminate tableA (ReachableNT.base 0 100 tableA rfl)).1,
   (c9_initializer_cannot_terminate tableA (ReachableNT.base 0 100 tableA rfl)).2 rfl⟩

lemma apply_op_state_cases (t : Metasino) (op : Op) :
    (apply_op t op).state = t.state ∨
    (t.state = STATE.STAGING ∧ op = Op.start ∧
      (apply_op t op).state = STATE.PLAYING) := by
  cases op with
  | register c b =>
    left
    rcases hr : register_player_seq t c b with ⟨t1, _ | e0⟩
    · rw [apply_op_register_def, hr]
      show t1.state = t.state
      obtain ⟨-, -, -, -, heq⟩ :=
        register_seq_ok (t := t) (c := c) (b := b) (by rw [hr])
      rw [hr] at heq
      have ht1 : t1 = { t with pot := t.pot + b, players := t.players ++ [c] } := heq
      rw [ht1]
    · rw [apply_op_register_def, hr]
  | start =>
    rcases hg : table_status_guard t with _ | e0
    · rw [apply_op_start_def, start_seq_guard_none hg]
      split_ifs with h1
      · left
        rfl
      · right
        exact ⟨guard_none_iff.mp hg, rfl, rfl⟩
    · left
      rw [apply_op_start_def, start_seq_guard_some hg]
  | terminate c =>
    left
    rcases hg : table_status_guard t with _ | e0
    · rw [apply_op_terminate_def, terminate_seq_guard_none hg c]
      split_ifs with h1
      · rfl
      · rfl
    · rw [apply_op_terminate_def, terminate_seq_guard_some hg c]

lemma reachable_not_ended {t : Metasino} (h : Reachable t) :
    t.state ≠ STATE.ENDED := by
  induction h with
  | base c b t h0 =>
    obtain ⟨-, rfl⟩ := new_ok h0
    simp
  | step t op h ih =>
    rcases apply_op_state_cases t op with h1 | ⟨h1, h2, h3⟩
    · rw [h1]
      exact ih
    · rw [h3]
      simp

/-- C8: the state field only moves forward and `ENDED` is never produced:
the only transition any message performs is `STAGING` to `PLAYING` via
`start_game`; no reachable table is in `ENDED`; and on a `PLAYING` table,
`register_player`, `start_game` and `terminate` all fail through the state
guard ("Game is ongoing!!") without touching any field. -/
theorem c8_state_forward (t : Metasino) :
    (∀ op, (apply_op t op).state = t.state ∨
      (t.state = STATE.STAGING ∧ op = Op.start ∧
        (apply_op t op).state = STATE.PLAYING)) ∧
    (Reachable t → t.state ≠ STATE.ENDED) ∧
    (t.state = STATE.PLAYING → ∀ c b,
      register_player_seq t c b = (t, some Err.GameOngoing) ∧
      start_game_seq t = (t, some Err.GameOngoing) ∧
      terminate_seq t c = (t, some Err.GameOngoing)) := by
  refine ⟨fun op => apply_op_state_cases t op,
    fun h => reachable_not_ended h, ?_⟩
  intro hp c b
  exact ⟨register_seq_guard_some (guard_playing hp) c b,
    start_seq_guard_some (guard_playing hp),
    terminate_seq_guard_some (guard_playing hp) c⟩

theorem c8_witness :
    tablePlaying.state ≠ STATE.ENDED ∧
    (register_player_seq tablePlaying 5 100 = (tablePlaying, some Err.GameOngoing) ∧
     start_game_seq tablePlaying = (tablePlaying, some Err.GameOngoing) ∧
     terminate_seq tablePlaying 5 = (tablePlaying, some Err.GameOngoing)) := by
  constructor
  · apply (c8_state_forward tablePlaying).2.1
    have h0 : Reachable tableA := Reachable.base 0 100 tableA rfl
    have h1 := Reachable.step tableA (Op.register 1 100) h0
    have e1 : apply_op tableA (Op.register 1 100) =
        { initializer := 0, players := [0, 1], required_start_bet := 100, pot := 200, state := STATE.STAGING } := by
      decide
    rw [e1] at h1
    have h2 := Reachable.step _ (Op.register 2 100) h1
    have e2 : apply_op { initializer := 0, players := [0, 1], required_start_bet := 100, pot := 200, state := STATE.STAGING } (Op.register 2 100) = tableABC := by
      decide
    rw [e2] at h2
    have h3 := Reachable.step tableABC Op.start h2
    have e3 : apply_op tableABC Op.start = tablePlaying := by
      decide
    rw [e3] at h3
    exact h3
  · exact (c8_state_forward tablePlaying).2.2 rfl 5 100

lemma register_player_eq_ok {t t1 : Metasino} {c b : Nat}
    (hr : register_player_seq t c b = (t1, none)) :
    register_player t c b = Except.ok t1 := by
  unfold register_player
  rw [hr]

lemma register_seq_success {t : Metasino} {c bet : Nat}
    (hst : t.state = STATE.STAGING)
    (hcnt : get_players_count t < MAX_PLAYERS)
    (hbet : t.required_start_bet = bet)
    (hcp : c ∉ t.players) :
    register_player_seq t c bet =
      ({ t with pot := t.pot + bet, players := t.players ++ [c] }, none) := by
  rw [register_seq_guard_none (guard_staging hst) c bet,
    if_neg (Nat.not_le.mpr hcnt), if_neg (by simp [hbet]), if_neg hcp]

lemma registerAll_ok (ids : List Nat) :
    ∀ t : Metasino, ∀ bet : Nat, t.state = STATE.STAGING →
    t.required_start_bet = bet →
    (t.players ++ ids).Nodup →
    t.players.length + ids.length ≤ 10 →
    ∃ t1, registerAll t bet ids = Except.ok t1 ∧
      t1.players = t.players ++ ids ∧
      t1.pot = t.pot + bet * ids.length ∧
      t1.required_start_bet = bet ∧
      t1.state = STATE.STAGING ∧
      t1.initializer = t.initializer := by
  induction ids with
  | nil =>
    intro t bet hst hbet hnd hlen
    exact ⟨t, rfl, by simp, by simp, hbet, hst, rfl⟩
  | cons c rest ih =>
    intro t bet hst hbet hnd hlen
    have hcnt : get_players_count t < MAX_PLAYERS := by
      unfold get_players_count MAX_PLAYERS
      simp only [List.length_cons] at hlen
      omega
    have hcp : c ∉ t.players := by
      rw [List.nodup_append] at hnd
      intro hmem
      exact hnd.2.2 hmem (List.mem_cons_self c rest)
    have hseq := register_seq_success hst hcnt hbet hcp
    obtain ⟨t2, hall, hps, hpot, hbet2, hst2, hini2⟩ :=
      ih { t with pot := t.pot + bet, players := t.players ++ [c] } bet hst hbet
        (by simpa [List.append_assoc] using (List.append_cons t.players c rest ▸ hnd))
        (by simp only [List.length_append, List.length_cons, List.length_nil] at hlen ⊢; omega)
    refine ⟨t2, ?_, ?_, ?_, hbet2, hst2, hini2⟩
    · show registerAll t bet (c :: rest) = Except.ok t2
      unfold registerAll
      rw [register_player_eq_ok hseq]
      exact hall
    · rw [hps]
      simp
    · rw [hpot]
      simp only [List.length_cons, Nat.mul_succ]
      ring

/-- C5: starting from any successful create and registering any list of
further distinct identities with the exact required bet (no terminate in
between), every registration succeeds and the resulting table has
`pot = bet * n` and `playerCount = n` for `n = 1 + number of registrants`
(so for every n in [1, 10]); and when the table holds 10 players, any
further registration attempt fails with `TableFull`. -/
theorem c5_full_table (bet init : Nat) (others : List Nat) (t0 : Metasino)
    (h0 : new init bet = Except.ok t0)
    (hnd : (init :: others).Nodup)
    (hlen : others.length + 1 ≤ 10) :
    ∃ t, registerAll t0 bet others = Except.ok t ∧
      t.pot = bet * (others.length + 1) ∧
      get_players_count t = others.length + 1 ∧
      (others.length + 1 = 10 →
        ∀ c b, (register_player_seq t c b).2 = some Err.TableFull) := by
  obtain ⟨hb, rfl⟩ := new_ok h0
  obtain ⟨t, hall, hps, hpot, hbet, hst, hini⟩ :=
    registerAll_ok others
      { initializer := init, players := [init], required_start_bet := bet, pot := bet, state := STATE.STAGING }
      bet rfl rfl (by simpa using hnd)
      (by simp only [List.length_cons, List.length_nil]; omega)
  have hlent : t.players.length = others.length + 1 := by
    rw [hps]
    simp only [List.length_append, List.length_cons, List.length_nil]
    omega
  refine ⟨t, hall, ?_, ?_, ?_⟩
  · rw [hpot]
    show bet + bet * others.length = bet * (others.length + 1)
    rw [Nat.mul_succ]
    ring
  · unfold get_players_count
    rw [hlent]
    omega
  · intro h10 c b
    have hc : MAX_PLAYERS ≤ get_players_count t := by
      unfold get_players_count MAX_PLAYERS
      rw [hlent]
      omega
    rw [register_seq_guard_none (guard_staging hst) c b, if_pos hc]

theorem c5_witness :
    ∃ t, registerAll tableA 100 [1, 2, 3, 4, 5, 6, 7, 8, 9] = Except.ok t ∧
      t.pot = 100 * ([1, 2, 3, 4, 5, 6, 7, 8, 9].length + 1) ∧
      get_players_count t = [1, 2, 3, 4, 5, 6, 7, 8, 9].length + 1 ∧
      ([1, 2, 3, 4, 5, 6, 7, 8, 9].length + 1 = 10 →
        ∀ c b, (register_player_seq t c b).2 = some Err.TableFull) :=
  c5_full_table 100 0 [1, 2, 3, 4, 5, 6, 7, 8, 9] tableA rfl (by decide)
    (by decide)

lemma invR_new {c b : Nat} {t : Metasino} (h : new c b = Except.ok t) :
    InvR t := by
  obtain ⟨hb, rfl⟩ := new_ok h
  exact ⟨hb, Nat.le_refl b, by simp⟩

lemma invR_step {t : Metasino} (op : Op) (h : InvR t) :
    InvR (apply_op t op) := by
  obtain ⟨hb, hbp, hl⟩ := h
  cases op with
  | register c b =>
    rcases hr : register_player_seq t c b with ⟨t1, _ | e0⟩
    · rw [apply_op_register_def, hr]
      show InvR t1
      obtain ⟨hst, hcnt, hbeq, hcp, heq⟩ :=
        register_seq_ok (t := t) (c := c) (b := b) (by rw [hr])
      have ht1 : t1 = { t with pot := t.pot + b, players := t.players ++ [c] } := by
        rw [hr] at heq
        exact heq
      rw [ht1]
      refine ⟨hb, Nat.le_trans hbp (Nat.le_add_right _ _), ?_⟩
      unfold get_players_count MAX_PLAYERS at hcnt
      simp only [List.length_append, List.length_cons, List.length_nil]
      omega
    · rw [apply_op_register_def, hr]
      exact ⟨hb, hbp, hl⟩
  | start =>
    rcases hg : table_status_guard t with _ | e0
    · rw [apply_op_start_def, start_seq_guard_none hg]
      split_ifs with h1
      · exact ⟨hb, hbp, hl⟩
      · exact ⟨hb, hbp, hl⟩
    · rw [apply_op_start_def, start_seq_guard_some hg]
      exact ⟨hb, hbp, hl⟩
  | terminate c =>
    rcases hg : table_status_guard t with _ | e0
    · rw [apply_op_terminate_def, terminate_seq_guard_none hg c]
      split_ifs with h1
      · exact ⟨hb, hbp, hl⟩
      · exact ⟨hb, hbp, by simp⟩
    · rw [apply_op_terminate_def, terminate_seq_guard_some hg c]
      exact ⟨hb, hbp, hl⟩

lemma reachable_invR {t : Metasino} (h : Reachable t) : InvR t := by
  induction h with
  | base c b t h0 => exact invR_new h0
  | step t op h ih => exact invR_step op ih

lemma strictInv_apply {t : Metasino} (op : Op) (h : StrictInv t) :
    StrictInv (apply_op t op) := by
  obtain ⟨hb, hp, hprod, hl⟩ := h
  cases op with
  | register c b =>
    rcases hr : register_player_seq t c b with ⟨t1, _ | e0⟩
    · rw [apply_op_register_def, hr]
      show StrictInv t1
      obtain ⟨hst, hcnt, hbeq, hcp, heq⟩ :=
        register_seq_ok (t := t) (c := c) (b := b) (by rw [hr])
      have ht1 : t1 = { t with pot := t.pot + b, players := t.players ++ [c] } := by
        rw [hr] at heq
        exact heq
      rw [ht1]
      subst hbeq
      refine ⟨hb, ?_, ?_, ?_⟩
      · show (1 : Nat) ≤ t.pot + t.required_start_bet
        omega
      · show t.required_start_bet * ((t.players ++ [c]).length) <
          t.pot + t.required_start_bet
        rw [List.length_append]
        have h1c : [c].length = 1 := rfl
        rw [h1c, Nat.mul_add, Nat.mul_one]
        omega
      · show (t.players ++ [c]).length ≤ 10
        rw [List.length_append]
        have h1c : [c].length = 1 := rfl
        rw [h1c]
        unfold get_players_count MAX_PLAYERS at hcnt
        omega
    · rw [apply_op_register_def, hr]
      exact ⟨hb, hp, hprod, hl⟩
  | start =>
    rcases hg : table_status_guard t with _ | e0
    · rw [apply_op_start_def, start_seq_guard_none hg]
      split_ifs with h1
      · exact ⟨hb, hp, hprod, hl⟩
      · exact ⟨hb, hp, hprod, hl⟩
    · rw [apply_op_start_def, start_seq_guard_some hg]
      exact ⟨hb, hp, hprod, hl⟩
  | terminate c =>
    rcases hg : table_status_guard t with _ | e0
    · rw [apply_op_terminate_def, terminate_seq_guard_none hg c]
      split_ifs with h1
      · exact ⟨hb, hp, hprod, hl⟩
      · exact ⟨hb, hp, by simpa using hp, by simp⟩
    · rw [apply_op_terminate_def, terminate_seq_guard_some hg c]
      exact ⟨hb, hp, hprod, hl⟩

lemma strictInv_run (ops : List Op) :
    ∀ t : Metasino, StrictInv t → StrictInv (run t ops) := by
  induction ops with
  | nil =>
    intro t h
    exact h
  | cons op rest ih =>
    intro t h
    exact ih (apply_op t op) (strictInv_apply op h)

/-- C10: on any reachable `STAGING` table, a terminate by a caller outside
the player list succeeds, leaves the table in `STAGING` with an empty player
list, lets any identity register again with the exact required bet, and from
then on — under any further sequence of messages — the pot strictly exceeds
bet times player count, because the pre-terminate pot was kept. -/
theorem c10_post_terminate (t : Metasino) (c : Nat)
    (hr : Reachable t) (hs : t.state = STATE.STAGING) (hc : c ∉ t.players) :
    (terminate_seq t c).2 = none ∧
    (terminate_seq t c).1.state = STATE.STAGING ∧
    (terminate_seq t c).1.players = [] ∧
    (∀ d, (register_player_seq (terminate_seq t c).1 d t.required_start_bet).2 = none) ∧
    (∀ ops, (run (terminate_seq t c).1 ops).required_start_bet *
        get_players_count (run (terminate_seq t c).1 ops) <
      (run (terminate_seq t c).1 ops).pot) := by
  have hterm : terminate_seq t c = ({ t with players := [] }, none) := by
    rw [terminate_seq_guard_none (guard_staging hs) c, if_neg hc]
  rw [hterm]
  obtain ⟨hb, hbp, hl⟩ := reachable_invR hr
  refine ⟨rfl, hs, rfl, ?_, ?_⟩
  · intro d
    have hst2 : ({ t with players := [] } : Metasino).state = STATE.STAGING := hs
    rw [register_seq_guard_none (guard_staging hst2) d t.required_start_bet,
      if_neg (by simp [get_players_count, MAX_PLAYERS]),
      if_neg (by simp), if_neg (by simp)]
  · intro ops
    have hstrict : StrictInv { t with players := [] } :=
      ⟨hb, Nat.le_trans hb hbp, by simpa using Nat.lt_of_lt_of_le hb hbp, by simp⟩
    obtain ⟨h1, h2, h3, h4⟩ := strictInv_run ops _ hstrict
    have hcount : get_players_count (run { t with players := [] } ops) =
        (run { t with players := [] } ops).players.length := by
      unfold get_players_count
      omega
    rw [hcount]
    exact h3

theorem c10_witness :
    (terminate_seq table1 5).2 = none ∧
    (terminate_seq table1 5).1.state = STATE.STAGING ∧
    (terminate_seq table1 5).1.players = [] ∧
    (∀ d, (register_player_seq (terminate_seq table1 5).1 d table1.required_start_bet).2 = none) ∧
    (∀ ops, (run (terminate_seq table1 5).1 ops).required_start_bet *
        get_players_count (run (terminate_seq table1 5).1 ops) <
      (run (terminate_seq table1 5).1 ops).pot) :=
  c10_post_terminate table1 5 (Reachable.base 0 1 table1 rfl) rfl (by decide)
